import Mathlib

/-!
OAuth2 login flow of the dashboard (`cmd/dashboard/controller/oauth2.go`).

A shallow embedding of `oauth2controller.getCommonOauth2Config`,
`getRedirectURL`, `login` and `callback`.

Conventions of the embedding:

* Go strings are Lean `String`s (valid UTF-8); rune-wise algorithms work on `String.data`,
  byte offsets are counted over the UTF-8 encoding (`runeLen`).
* The handlers are effectful in Go.  Here every effect is explicit: the process-wide cache is
  passed in and returned, calls to collaborators are answered by an `Externals` record and
  logged in a call trace, and cookies, the rendered page and `DB.Save` are fields of the outcome.
* `err` is the single mutable error variable of `callback`; it is threaded as `Option String`
  (`none` is Go's `nil`).
-/

namespace Oauth2

/-! ## Standard-library pieces used by the controller -/

/-- Go `strings.HasPrefix`, rune-wise. -/
def hasPrefixStr (s pre : String) : Bool :=
  pre.data.isPrefixOf s.data

/-- Go `strings.Split(s, sep)` for a one-rune separator, on rune lists: the pieces between
consecutive separators, always at least one piece. -/
def splitRunes (sep : Char) : List Char → List (List Char)
  | [] => [[]]
  | c :: cs =>
    if c = sep then [] :: splitRunes sep cs
    else
      match splitRunes sep cs with
      | [] => [[c]]
      | w :: ws => (c :: w) :: ws

/-- Go `strings.Split(s, ",")`. -/
def splitComma (s : String) : List String :=
  (splitRunes ',' s.data).map String.mk

/-- One rune comparison of Go `strings.EqualFold`.  `general lo hi` stands for the general
(non-ASCII) case, the loop `r := unicode.SimpleFold(lo); for r != lo && r < hi ...; r == hi`
over the Unicode folding table, called with `lo < hi`. -/
def foldEqRune (general : Char → Char → Bool) (sr tr : Char) : Bool :=
  if tr = sr then true
  else
    let lo := if tr.toNat < sr.toNat then tr else sr
    let hi := if tr.toNat < sr.toNat then sr else tr
    if hi.toNat < 128 then
      decide (65 ≤ lo.toNat ∧ lo.toNat ≤ 90 ∧ hi.toNat = lo.toNat + 32)
    else general lo hi

/-- Go `strings.EqualFold` on rune lists: equal length and rune-wise equal under simple
case folding. -/
def equalFoldRunes (general : Char → Char → Bool) : List Char → List Char → Bool
  | [], [] => true
  | [], _ :: _ => false
  | _ :: _, [] => false
  | sr :: s, tr :: t => foldEqRune general sr tr && equalFoldRunes general s t

/-- Go `strings.EqualFold`. -/
def EqualFold (general : Char → Char → Bool) (s t : String) : Bool :=
  equalFoldRunes general s.data t.data

/-! ## go-cache (`github.com/patrickmn/go-cache`) -/

/-- A cache item: the stored object and its expiry instant in nanoseconds (`0`: never). -/
structure Item where
  Object : String
  Expiration : Int
deriving DecidableEq, Repr

/-- The cache: its items (first binding of a key wins) and its default time to live. -/
structure Cache where
  items : List (String × Item)
  defaultExpiration : Int
deriving DecidableEq, Repr

/-- `cache.DefaultExpiration`. -/
def DefaultExpiration : Int := 0

/-- `Item.Expired` as inlined in `Cache.Get`, at instant `now`. -/
def Item.expiredAt (it : Item) (now : Int) : Bool :=
  decide (it.Expiration > 0) && decide (now > it.Expiration)

/-- `Cache.Get(k)` at instant `now`: the object, unless the key is absent or the item expired. -/
def Cache.Get (c : Cache) (now : Int) (k : String) : Option String :=
  match c.items.lookup k with
  | none => none
  | some it => if it.expiredAt now then none else some it.Object

/-- `Cache.Set(k, x, d)` at instant `now`. -/
def Cache.Set (c : Cache) (now : Int) (k : String) (x : String) (d : Int) : Cache :=
  let d := if d = DefaultExpiration then c.defaultExpiration else d
  let e : Int := if d > 0 then now + d else 0
  { c with items := (k, { Object := x, Expiration := e }) :: c.items.filter (fun p => p.1 != k) }

/-! ## Configuration, request and response -/

/-- The constants of package `model` the controller refers to (`model/config.go`,
`model/common.go`); they are parameters of the embedding. -/
structure ModelConsts where
  ConfigTypeGitee : String
  ConfigTypeGitlab : String
  ConfigTypeJihulab : String
  ConfigTypeGitea : String
  CacheKeyOauth2State : String
deriving Repr

/-- The part `singleton.Conf.Oauth2` of the configuration (`OauthType` is the field `Type`). -/
structure Oauth2Conf where
  OauthType : String
  Admin : String
  ClientID : String
  ClientSecret : String
  Endpoint : String
deriving Repr

/-- The part `singleton.Conf.Site` of the configuration. -/
structure SiteConf where
  CookieName : String
  DashboardTheme : String
deriving Repr

/-- The configuration `singleton.Conf`. -/
structure Config where
  Oauth2 : Oauth2Conf
  Site : SiteConf
deriving Repr

/-- What the handlers read of the incoming request: host, Referer header (empty when absent),
the cookies (name, unescaped value) and the query parameters in order. -/
structure Request where
  Host : String
  Referer : String
  cookies : List (String × String)
  query : List (String × String)
deriving Repr

/-- The gin accessor `c.Cookie(name)`: the first cookie of that name; `none` is
`http.ErrNoCookie`. -/
def Request.Cookie (r : Request) (name : String) : Option String :=
  r.cookies.lookup name

/-- The gin accessor `c.Query(key)`: the first value of the parameter, `""` when absent. -/
def Request.Query (r : Request) (key : String) : String :=
  (r.query.lookup key).getD ""

/-- The endpoint pair `oauth2.Endpoint`. -/
structure Endpoint where
  AuthURL : String
  TokenURL : String
deriving DecidableEq, Repr

/-- The provider config `oauth2.Config`; `Scopes = none` is a nil slice. -/
structure OauthConfig where
  ClientID : String
  ClientSecret : String
  Scopes : Option (List String)
  Endpoint : Endpoint
  RedirectURL : String
deriving DecidableEq, Repr

/-- `golang.org/x/oauth2/gitlab.Endpoint`. -/
def GitlabOauth2Endpoint : Endpoint :=
  { AuthURL := "https://gitlab.com/oauth/authorize", TokenURL := "https://gitlab.com/oauth/token" }

/-- `golang.org/x/oauth2/github.Endpoint`. -/
def GitHubOauth2Endpoint : Endpoint :=
  { AuthURL := "https://github.com/login/oauth/authorize",
    TokenURL := "https://github.com/login/oauth/access_token" }

/-- `oauth2controller.getRedirectURL`. -/
def getRedirectURL (req : Request) : String :=
  let scheme := if hasPrefixStr req.Referer "https://" then "https://" else "http://"
  scheme ++ req.Host ++ "/oauth2/callback"

/-- `oauth2controller.getCommonOauth2Config`. -/
def getCommonOauth2Config (k : ModelConsts) (conf : Config) (req : Request) : OauthConfig :=
  if conf.Oauth2.OauthType = k.ConfigTypeGitee then
    { ClientID := conf.Oauth2.ClientID
      ClientSecret := conf.Oauth2.ClientSecret
      Scopes := some []
      Endpoint := { AuthURL := "https://gitee.com/oauth/authorize",
                    TokenURL := "https://gitee.com/oauth/token" }
      RedirectURL := getRedirectURL req }
  else if conf.Oauth2.OauthType = k.ConfigTypeGitlab then
    { ClientID := conf.Oauth2.ClientID
      ClientSecret := conf.Oauth2.ClientSecret
      Scopes := some ["read_user", "read_api"]
      Endpoint := GitlabOauth2Endpoint
      RedirectURL := getRedirectURL req }
  else if conf.Oauth2.OauthType = k.ConfigTypeJihulab then
    { ClientID := conf.Oauth2.ClientID
      ClientSecret := conf.Oauth2.ClientSecret
      Scopes := some ["read_user", "read_api"]
      Endpoint := { AuthURL := "https://jihulab.com/oauth/authorize",
                    TokenURL := "https://jihulab.com/oauth/token" }
      RedirectURL := getRedirectURL req }
  else if conf.Oauth2.OauthType = k.ConfigTypeGitea then
    { ClientID := conf.Oauth2.ClientID
      ClientSecret := conf.Oauth2.ClientSecret
      Scopes := none
      Endpoint := { AuthURL := conf.Oauth2.Endpoint ++ "/login/oauth/authorize",
                    TokenURL := conf.Oauth2.Endpoint ++ "/login/oauth/access_token" }
      RedirectURL := getRedirectURL req }
  else
    { ClientID := conf.Oauth2.ClientID
      ClientSecret := conf.Oauth2.ClientSecret
      Scopes := some []
      Endpoint := GitHubOauth2Endpoint
      RedirectURL := "" }

/-! ## Collaborators and effects -/

/-- The fields of `model.User` the controller touches. -/
structure User where
  Login : String
  Token : String
  TokenExpired : Int
deriving DecidableEq, Repr

/-- The argument `mygin.ErrInfo` of `mygin.ShowErrorPage`. -/
structure ErrInfo where
  Code : Nat
  Title : String
  Msg : String
deriving DecidableEq, Repr

/-- `http.StatusBadRequest`. -/
def StatusBadRequest : Nat := 400

/-- `http.StatusOK`. -/
def StatusOK : Nat := 200

/-- What a handler renders: a call `mygin.ShowErrorPage(c, info, isPage)`, or a call
`c.HTML(status, template, {"URL": url})`. -/
inductive Page where
  | showErrorPage (info : ErrInfo) (isPage : Bool)
  | html (status : Nat) (template : String) (url : String)
deriving DecidableEq, Repr

/-- A cookie as passed to gin `c.SetCookie(name, value, maxAge, path, domain, secure, httpOnly)`. -/
structure SetCookie where
  name : String
  value : String
  maxAge : Int
  path : String
  domain : String
  secure : Bool
  httpOnly : Bool
deriving DecidableEq, Repr

/-- A call to a collaborator, in the order made. -/
inductive Call where
  | exchange (code : String)
  | newClient (baseURL : String)
  | getUser
  | generateRandomString (n : Nat)
  | dbSave (u : User)
deriving DecidableEq, Repr

/-- The answers of the collaborators to one request.  `Except.error msg` is a Go error with
message `msg`.
* `generateRandomString n` is `utils.GenerateRandomString(n)`;
* `exchange cfg code` is `oauth2Config.Exchange(ctx, code)`, giving the access token;
* `newClient baseURL token` is `gitlab.NewOAuthClient` / `gitea.NewClient` (`none`: no error);
* `getUser typ token` is the provider's "current user" call followed by
  `model.NewUserFromGitlab` / `NewUserFromGitea` / `NewUserFromGitHub`;
* `authCodeURL cfg state` is `oauth2.Config.AuthCodeURL(state, oauth2.AccessTypeOnline)`;
* `now` is `time.Now()` in nanoseconds, `addDate t` is `t.AddDate(0, 2, 0)`;
* `general` is the Unicode table part of `strings.EqualFold`. -/
structure Externals where
  generateRandomString : Nat → Except String String
  exchange : OauthConfig → String → Except String String
  newClient : String → String → Option String
  getUser : String → String → Except String User
  authCodeURL : OauthConfig → String → String
  now : Int
  addDate : Int → Int
  general : Char → Char → Bool

/-- What a handler did: the page rendered, the cookies set, the users handed to
`singleton.DB.Save`, the collaborator calls in order, and the cache afterwards. -/
structure Outcome where
  page : Page
  cookies : List SetCookie
  saved : List User
  calls : List Call
  cache : Cache
deriving DecidableEq, Repr

/-! ## `login` -/

/-- Go `utf8.RuneLen`: the number of bytes of the UTF-8 encoding of a rune. -/
def runeLen (c : Char) : Nat :=
  if c.toNat < 128 then 1 else if c.toNat < 2048 then 2 else if c.toNat < 65536 then 3 else 4

/-- Go `len(s)`: the number of bytes of a string, given as its runes. -/
def byteLen (s : List Char) : Nat :=
  (s.map runeLen).sum

/-- Why `login` gives no outcome here.
* `sliceOutOfRange`: the random string has fewer than 16 bytes and `randomString[:16]` panics.
* `splitsRune`: byte 16 falls inside a multi-byte rune, so `randomString[:16]` and
  `randomString[16:]` are byte strings that are not valid UTF-8; the strings of this embedding
  cannot hold them and the handler is not followed further. -/
inductive LoginFault where
  | sliceOutOfRange
  | splitsRune
deriving DecidableEq, Repr

/-- The Go slices `s[:n]` and `s[n:]` at the byte offset `n`, on the runes of `s`. -/
def splitAtByte : List Char → Nat → Except LoginFault (List Char × List Char)
  | s, 0 => .ok ([], s)
  | [], _ + 1 => .error .sliceOutOfRange
  | c :: cs, n + 1 =>
    if runeLen c ≤ n + 1 then
      match splitAtByte cs (n + 1 - runeLen c) with
      | .ok p => .ok (c :: p.1, p.2)
      | .error e => .error e
    else .error .splitsRune

/-- `oauth2controller.login`.  The random string is cut at byte 16, as
`randomString[:16], randomString[16:]` does. -/
def login (k : ModelConsts) (conf : Config) (ext : Externals) (cache : Cache) (req : Request) :
    Except LoginFault Outcome :=
  match ext.generateRandomString 32 with
  | .error e =>
    .ok { page := .showErrorPage
                    { Code := StatusBadRequest, Title := "Something Wrong", Msg := e } true
          cookies := []
          saved := []
          calls := [.generateRandomString 32]
          cache := cache }
  | .ok randomString =>
    match splitAtByte randomString.data 16 with
    | .error f => .error f
    | .ok halves =>
      let state := String.mk halves.1
      let stateKey := String.mk halves.2
      let cache1 := cache.Set ext.now (k.CacheKeyOauth2State ++ stateKey) state DefaultExpiration
      let url := ext.authCodeURL (getCommonOauth2Config k conf req) state
      .ok { page := .html StatusOK ("dashboard-" ++ conf.Site.DashboardTheme ++ "/redirect") url
            cookies := [{ name := conf.Site.CookieName ++ "-sk", value := stateKey,
                          maxAge := 60 * 5, path := "", domain := "",
                          secure := false, httpOnly := false }]
            saved := []
            calls := [.generateRandomString 32]
            cache := cache1 }

/-! ## `callback` -/

/-- The first block of `callback` (验证登录跳转时的 State): the value of `err` after it.
`none` means state verification passed. -/
def verifyState (k : ModelConsts) (conf : Config) (now : Int) (cache : Cache) (req : Request) :
    Option String :=
  match req.Cookie (conf.Site.CookieName ++ "-sk") with
  | none => some "http: named cookie not present"
  | some stateKey =>
    match cache.Get now (k.CacheKeyOauth2State ++ stateKey) with
    | none => some "非法的登录方式"
    | some state => if state != req.Query "state" then some "非法的登录方式" else none

/-- The provider block of `callback`, entered with `err == nil` and the access token: the
value of `err` after it, the `user` assigned, and the collaborator calls made. -/
def resolveUser (k : ModelConsts) (conf : Config) (ext : Externals) (accessToken : String) :
    Option String × User × List Call :=
  let zero : User := { Login := "", Token := "", TokenExpired := 0 }
  let typ := conf.Oauth2.OauthType
  if typ = k.ConfigTypeGitlab ∨ typ = k.ConfigTypeJihulab then
    let baseURL := if typ = k.ConfigTypeGitlab then "" else "https://jihulab.com/api/v4/"
    match ext.newClient baseURL accessToken with
    | some e => (some e, zero, [.newClient baseURL])
    | none =>
      match ext.getUser typ accessToken with
      | .error e => (some e, zero, [.newClient baseURL, .getUser])
      | .ok u => (none, u, [.newClient baseURL, .getUser])
  else if typ = k.ConfigTypeGitea then
    match ext.newClient conf.Oauth2.Endpoint accessToken with
    | some e => (some e, zero, [.newClient conf.Oauth2.Endpoint])
    | none =>
      match ext.getUser typ accessToken with
      | .error e => (some e, zero, [.newClient conf.Oauth2.Endpoint, .getUser])
      | .ok u => (none, u, [.newClient conf.Oauth2.Endpoint, .getUser])
  else
    match ext.getUser typ accessToken with
    | .error e => (some e, zero, [.getUser])
    | .ok u => (none, u, [.getUser])

/-- The admin loop of `callback`:
`for _, admin := range ... { if admin != "" && strings.EqualFold(login, admin) { isAdmin = true; break } }`
over the remaining entries. -/
def isAdminLoop (general : Char → Char → Bool) (login : String) : List String → Bool
  | [] => false
  | admin :: rest =>
    if admin != "" && EqualFold general login admin then true
    else isAdminLoop general login rest

/-- The admin check of `callback` on the allow-list `singleton.Conf.Oauth2.Admin`. -/
def isAdmin (general : Char → Char → Bool) (adminList login : String) : Bool :=
  isAdminLoop general login (splitComma adminList)

/-- The page of every failure exit of `callback` that reports `err`. -/
def loginFailedPage (msg : String) : Page :=
  .showErrorPage
    { Code := StatusBadRequest, Title := "登录失败", Msg := "错误信息：" ++ msg } true

/-- The exchange step of `callback`, entered with the `err` left by state verification:
`if err == nil { otk, err = oauth2Config.Exchange(ctx, c.Query("code")) }`.
Gives `err`, the access token and the collaborator calls so far. -/
def exchangeStep (ext : Externals) (oauth2Config : OauthConfig) (req : Request)
    (err : Option String) : Option String × String × List Call :=
  match err with
  | some e => (some e, "", [])
  | none =>
    match ext.exchange oauth2Config (req.Query "code") with
    | .error e => (some e, "", [.exchange (req.Query "code")])
    | .ok tok => (none, tok, [.exchange (req.Query "code")])

/-- The identity step of `callback`: `var user model.User; if err == nil { ...provider block... }`.
Gives `err`, `user` and the collaborator calls so far. -/
def userStep (k : ModelConsts) (conf : Config) (ext : Externals)
    (s : Option String × String × List Call) : Option String × User × List Call :=
  match s.1 with
  | some e => (some e, { Login := "", Token := "", TokenExpired := 0 }, s.2.2)
  | none =>
    ((resolveUser k conf ext s.2.1).1, (resolveUser k conf ext s.2.1).2.1,
      s.2.2 ++ (resolveUser k conf ext s.2.1).2.2)

/-- The rest of `callback`, from the empty-login check to the end. -/
def finishStep (conf : Config) (ext : Externals) (cache : Cache)
    (s : Option String × User × List Call) : Outcome :=
  -- if err == nil && user.Login == "" { err = errors.New("获取用户信息失败") }
  let err : Option String :=
    if s.1 = none ∧ s.2.1.Login = "" then some "获取用户信息失败" else s.1
  -- if err != nil || user.Login == "" { ShowErrorPage; return }
  if err ≠ none ∨ s.2.1.Login = "" then
    { page := loginFailedPage (err.getD "%!s(<nil>)")
      cookies := [], saved := [], calls := s.2.2, cache := cache }
  else if isAdmin ext.general conf.Oauth2.Admin s.2.1.Login = false then
    { page := loginFailedPage "该用户不是本站点管理员，无法登录"
      cookies := [], saved := [], calls := s.2.2, cache := cache }
  else
    match ext.generateRandomString 32 with
    | .error e =>
      { page := .showErrorPage
                  { Code := StatusBadRequest, Title := "Something wrong", Msg := e } true
        cookies := [], saved := [], calls := s.2.2 ++ [.generateRandomString 32]
        cache := cache }
    | .ok token =>
      { page := .html StatusOK ("dashboard-" ++ conf.Site.DashboardTheme ++ "/redirect") "/"
        cookies := [{ name := conf.Site.CookieName, value := token,
                      maxAge := 60 * 60 * 24, path := "", domain := "",
                      secure := false, httpOnly := false }]
        saved := [{ s.2.1 with Token := token, TokenExpired := ext.addDate ext.now }]
        calls := s.2.2 ++ [.generateRandomString 32,
                           .dbSave { s.2.1 with Token := token,
                                                TokenExpired := ext.addDate ext.now }]
        cache := cache }

/-- `oauth2controller.callback`: state verification, then the exchange, the identity fetch,
the admin check and the session issue, each guarded by `err == nil`. -/
def callback (k : ModelConsts) (conf : Config) (ext : Externals) (cache : Cache) (req : Request) :
    Outcome :=
  finishStep conf ext cache
    (userStep k conf ext
      (exchangeStep ext (getCommonOauth2Config k conf req) req
        (verifyState k conf ext.now cache req)))

/-- The five checks of `callback` all pass: state verification, the token exchange (giving
`tok`), the identity fetch (giving `u`, with a non-empty login), the admin check, and the
generation of the session token `token`. -/
def AllChecksPass (k : ModelConsts) (conf : Config) (ext : Externals) (cache : Cache)
    (req : Request) (tok : String) (u : User) (token : String) : Prop :=
  verifyState k conf ext.now cache req = none ∧
  ext.exchange (getCommonOauth2Config k conf req) (req.Query "code") = .ok tok ∧
  (resolveUser k conf ext tok).1 = none ∧ (resolveUser k conf ext tok).2.1 = u ∧
  u.Login ≠ "" ∧
  isAdmin ext.general conf.Oauth2.Admin u.Login = true ∧
  ext.generateRandomString 32 = .ok token

/-! ## A concrete deployment, for evaluating the handlers -/

/-- The constants as package `model` declares them upstream. -/
def exConsts : ModelConsts :=
  { ConfigTypeGitee := "gitee", ConfigTypeGitlab := "gitlab", ConfigTypeJihulab := "jihulab",
    ConfigTypeGitea := "gitea", CacheKeyOauth2State := "p:a:state" }

/-- A configuration with the given provider type and allow-list. -/
def exConf (typ admin : String) : Config :=
  { Oauth2 := { OauthType := typ, Admin := admin, ClientID := "id", ClientSecret := "secret",
                Endpoint := "https://git.example.com" }
    Site := { CookieName := "nezha-dashboard", DashboardTheme := "default" } }

/-- Collaborators that all succeed: the random string is fixed, the provider reports the
user `login`; time is measured from 1000 and no non-ASCII folding is used. -/
def exExt (login : String) : Externals :=
  { generateRandomString := fun _ => .ok "0123456789abcdefGHIJKLMNOPQRSTUV"
    exchange := fun _ _ => .ok "access-token"
    newClient := fun _ _ => none
    getUser := fun _ _ => .ok { Login := login, Token := "", TokenExpired := 0 }
    authCodeURL := fun cfg state => cfg.Endpoint.AuthURL ++ "?state=" ++ state
    now := 1000
    addDate := fun t => t + 5184000
    general := fun _ _ => false }

/-- An empty cache whose entries live 300 time units. -/
def exCache : Cache := { items := [], defaultExpiration := 300 }

/-- The login request. -/
def exLoginReq : Request :=
  { Host := "dash.example.com", Referer := "https://dash.example.com/login", cookies := [],
    query := [] }

/-- The cache after the login of `exLoginReq`: one entry `p:a:stateGHIJKLMNOPQRSTUV`. -/
def exCacheAfterLogin : Cache :=
  { items := [("p:a:stateGHIJKLMNOPQRSTUV", { Object := "0123456789abcdef", Expiration := 1300 })]
    defaultExpiration := 300 }

/-- The callback request that follows `exLoginReq`: the state-key cookie and the state
parameter issued by that login. -/
def exCallbackReq : Request :=
  { Host := "dash.example.com", Referer := "https://github.com/",
    cookies := [("nezha-dashboard-sk", "GHIJKLMNOPQRSTUV")],
    query := [("code", "c0de"), ("state", "0123456789abcdef")] }

/-! ## Helper lemmas -/

theorem lookup_set_self (c : Cache) (now : Int) (key x : String) (d : Int) :
    (c.Set now key x d).items.lookup key =
      some { Object := x,
             Expiration :=
               if (if d = DefaultExpiration then c.defaultExpiration else d) > 0
               then now + (if d = DefaultExpiration then c.defaultExpiration else d) else 0 } := by
  simp [Cache.Set, List.lookup]

theorem callback_cache (k : ModelConsts) (conf : Config) (ext : Externals) (cache : Cache)
    (req : Request) : (callback k conf ext cache req).cache = cache := by
  unfold callback finishStep
  simp only []
  split_ifs <;> first | rfl | (cases ext.generateRandomString 32 <;> rfl)

theorem callback_verify_fail (k : ModelConsts) (conf : Config) (ext : Externals) (cache : Cache)
    (req : Request) (e : String) (h : verifyState k conf ext.now cache req = some e) :
    callback k conf ext cache req =
      { page := loginFailedPage e, cookies := [], saved := [], calls := [], cache := cache } := by
  unfold callback
  simp [h, exchangeStep, userStep, finishStep]

theorem finishStep_err (conf : Config) (ext : Externals) (cache : Cache)
    (err : Option String) (user : User) (calls : List Call) (e : String) (h : err = some e) :
    finishStep conf ext cache (err, user, calls) =
      { page := loginFailedPage e, cookies := [], saved := [], calls := calls, cache := cache } := by
  unfold finishStep
  simp [h]

theorem finishStep_empty_login (conf : Config) (ext : Externals) (cache : Cache)
    (err : Option String) (user : User) (calls : List Call) (h : err = none)
    (hl : user.Login = "") :
    finishStep conf ext cache (err, user, calls) =
      { page := loginFailedPage "获取用户信息失败", cookies := [], saved := [], calls := calls,
        cache := cache } := by
  unfold finishStep
  simp [h, hl]

theorem finishStep_not_admin (conf : Config) (ext : Externals) (cache : Cache)
    (err : Option String) (user : User) (calls : List Call) (h : err = none)
    (hl : user.Login ≠ "")
    (ha : isAdmin ext.general conf.Oauth2.Admin user.Login = false) :
    finishStep conf ext cache (err, user, calls) =
      { page := loginFailedPage "该用户不是本站点管理员，无法登录", cookies := [], saved := [],
        calls := calls, cache := cache } := by
  unfold finishStep
  simp [h, hl, ha]

theorem finishStep_token_err (conf : Config) (ext : Externals) (cache : Cache)
    (err : Option String) (user : User) (calls : List Call) (e : String) (h : err = none)
    (hl : user.Login ≠ "") (ha : isAdmin ext.general conf.Oauth2.Admin user.Login = true)
    (hg : ext.generateRandomString 32 = .error e) :
    finishStep conf ext cache (err, user, calls) =
      { page := .showErrorPage
                  { Code := StatusBadRequest, Title := "Something wrong", Msg := e } true
        cookies := [], saved := [], calls := calls ++ [.generateRandomString 32],
        cache := cache } := by
  unfold finishStep
  simp [h, hl, ha, hg]

theorem finishStep_ok (conf : Config) (ext : Externals) (cache : Cache)
    (err : Option String) (user : User) (calls : List Call) (token : String) (h : err = none)
    (hl : user.Login ≠ "") (ha : isAdmin ext.general conf.Oauth2.Admin user.Login = true)
    (hg : ext.generateRandomString 32 = .ok token) :
    finishStep conf ext cache (err, user, calls) =
      { page := .html StatusOK ("dashboard-" ++ conf.Site.DashboardTheme ++ "/redirect") "/"
        cookies := [{ name := conf.Site.CookieName, value := token,
                      maxAge := 60 * 60 * 24, path := "", domain := "",
                      secure := false, httpOnly := false }]
        saved := [{ user with Token := token, TokenExpired := ext.addDate ext.now }]
        calls := calls ++ [.generateRandomString 32,
                           .dbSave { user with Token := token,
                                               TokenExpired := ext.addDate ext.now }]
        cache := cache } := by
  unfold finishStep
  simp [h, hl, ha, hg]

theorem finishStep_cookies (conf : Config) (ext : Externals) (cache : Cache)
    (s : Option String × User × List Call) :
    ∀ ck ∈ (finishStep conf ext cache s).cookies,
      ck = { name := conf.Site.CookieName, value := ck.value, maxAge := 86400,
             path := "", domain := "", secure := false, httpOnly := false } := by
  obtain ⟨err, user, calls⟩ := s
  intro ck hck
  cases h : err with
  | some e => rw [finishStep_err conf ext cache err user calls e h] at hck; simp at hck
  | none =>
    by_cases hl : user.Login = ""
    · rw [finishStep_empty_login conf ext cache err user calls h hl] at hck; simp at hck
    · cases ha : isAdmin ext.general conf.Oauth2.Admin user.Login with
      | false => rw [finishStep_not_admin conf ext cache err user calls h hl ha] at hck; simp at hck
      | true =>
        cases hg : ext.generateRandomString 32 with
        | error e =>
          rw [finishStep_token_err conf ext cache err user calls e h hl ha hg] at hck
          simp at hck
        | ok token =>
          rw [finishStep_ok conf ext cache err user calls token h hl ha hg] at hck
          simp only [List.mem_singleton] at hck
          subst hck
          rfl

theorem resolveUser_calls (k : ModelConsts) (conf : Config) (ext : Externals) (tok : String) :
    ∀ c ∈ (resolveUser k conf ext tok).2.2, c = .getUser ∨ ∃ b, c = .newClient b := by
  intro c hc
  unfold resolveUser at hc
  simp only [] at hc
  split_ifs at hc
  · cases hn : ext.newClient "" tok with
    | some e => simp [hn] at hc; exact Or.inr ⟨_, hc⟩
    | none =>
      cases hu : ext.getUser conf.Oauth2.OauthType tok <;> simp [hn, hu] at hc <;>
        rcases hc with hc | hc
      · exact Or.inr ⟨_, hc⟩
      · exact Or.inl hc
      · exact Or.inr ⟨_, hc⟩
      · exact Or.inl hc
  · cases hn : ext.newClient "https://jihulab.com/api/v4/" tok with
    | some e => simp [hn] at hc; exact Or.inr ⟨_, hc⟩
    | none =>
      cases hu : ext.getUser conf.Oauth2.OauthType tok <;> simp [hn, hu] at hc <;>
        rcases hc with hc | hc
      · exact Or.inr ⟨_, hc⟩
      · exact Or.inl hc
      · exact Or.inr ⟨_, hc⟩
      · exact Or.inl hc
  · cases hn : ext.newClient conf.Oauth2.Endpoint tok with
    | some e => simp [hn] at hc; exact Or.inr ⟨_, hc⟩
    | none =>
      cases hu : ext.getUser conf.Oauth2.OauthType tok <;> simp [hn, hu] at hc <;>
        rcases hc with hc | hc
      · exact Or.inr ⟨_, hc⟩
      · exact Or.inl hc
      · exact Or.inr ⟨_, hc⟩
      · exact Or.inl hc
  · cases hu : ext.getUser conf.Oauth2.OauthType tok <;> simp [hu] at hc <;> exact Or.inl hc

/-- With a working client constructor and a user fetch answering `u`, every provider branch
of `resolveUser` leaves `err == nil` and `user = u`. -/
theorem resolveUser_ok (k : ModelConsts) (conf : Config) (ext : Externals) (tok : String)
    (u : User) (hc : ∀ base, ext.newClient base tok = none)
    (hu : ext.getUser conf.Oauth2.OauthType tok = .ok u) :
    (resolveUser k conf ext tok).1 = none ∧ (resolveUser k conf ext tok).2.1 = u := by
  unfold resolveUser
  simp only []
  split_ifs <;> simp [hc, hu]

theorem callback_after_exchange (k : ModelConsts) (conf : Config) (ext : Externals)
    (cache : Cache) (req : Request) (tok : String)
    (hv : verifyState k conf ext.now cache req = none)
    (hx : ext.exchange (getCommonOauth2Config k conf req) (req.Query "code") = .ok tok) :
    callback k conf ext cache req =
      finishStep conf ext cache
        ((resolveUser k conf ext tok).1, (resolveUser k conf ext tok).2.1,
          [.exchange (req.Query "code")] ++ (resolveUser k conf ext tok).2.2) := by
  unfold callback
  simp [hv, hx, exchangeStep, userStep]

theorem callback_exchange_fail (k : ModelConsts) (conf : Config) (ext : Externals)
    (cache : Cache) (req : Request) (e : String)
    (hv : verifyState k conf ext.now cache req = none)
    (hx : ext.exchange (getCommonOauth2Config k conf req) (req.Query "code") = .error e) :
    callback k conf ext cache req =
      { page := loginFailedPage e, cookies := [], saved := [],
        calls := [.exchange (req.Query "code")], cache := cache } := by
  unfold callback
  simp [hv, hx, exchangeStep, userStep, finishStep]

theorem isAdminLoop_iff (general : Char → Char → Bool) (login : String) (l : List String) :
    isAdminLoop general login l = true ↔
      ∃ e ∈ l, e ≠ "" ∧ EqualFold general login e = true := by
  induction l with
  | nil => simp [isAdminLoop]
  | cons a rest ih =>
    unfold isAdminLoop
    by_cases h : (a != "" && EqualFold general login a) = true
    · rw [if_pos h]
      simp only [Bool.and_eq_true, bne_iff_ne, ne_eq] at h
      exact ⟨fun _ => ⟨a, List.mem_cons_self _ _, h.1, h.2⟩, fun _ => rfl⟩
    · rw [if_neg h, ih]
      simp only [Bool.and_eq_true, bne_iff_ne, ne_eq] at h
      constructor
      · rintro ⟨e, he, h1, h2⟩
        exact ⟨e, List.mem_cons_of_mem _ he, h1, h2⟩
      · rintro ⟨e, he, h1, h2⟩
        rcases List.mem_cons.mp he with heq | he
        · subst heq
          exact absurd ⟨h1, h2⟩ h
        · exact ⟨e, he, h1, h2⟩

theorem splitRunes_ne_nil (sep : Char) (s : List Char) : splitRunes sep s ≠ [] := by
  induction s with
  | nil => simp [splitRunes]
  | cons c cs ih =>
    unfold splitRunes
    split_ifs
    · simp
    · cases h : splitRunes sep cs <;> simp

/-- Joining the pieces of `splitRunes` with the separator gives the string back. -/
theorem splitRunes_join (sep : Char) (s : List Char) :
    List.intercalate [sep] (splitRunes sep s) = s := by
  induction s with
  | nil => simp [splitRunes, List.intercalate]
  | cons c cs ih =>
    unfold splitRunes
    split_ifs with hc
    · subst hc
      cases h : splitRunes c cs with
      | nil => exact absurd h (splitRunes_ne_nil _ _)
      | cons w ws =>
        rw [h] at ih
        simp only [List.intercalate, List.intersperse, List.flatten] at ih ⊢
        simp [ih]
    · cases h : splitRunes sep cs with
      | nil => exact absurd h (splitRunes_ne_nil _ _)
      | cons w ws =>
        rw [h] at ih
        cases ws with
        | nil =>
          simp only [List.intercalate, List.intersperse, List.flatten] at ih ⊢
          simpa using ih
        | cons w2 ws2 =>
          simp only [List.intercalate, List.intersperse, List.flatten] at ih ⊢
          simpa using ih

/-- No piece of `splitRunes` contains the separator. -/
theorem splitRunes_no_sep (sep : Char) (s : List Char) :
    ∀ w ∈ splitRunes sep s, sep ∉ w := by
  induction s with
  | nil => simp [splitRunes]
  | cons c cs ih =>
    unfold splitRunes
    split_ifs with hc
    · intro w hw
      rcases List.mem_cons.mp hw with rfl | hw
      · simp
      · exact ih w hw
    · cases h : splitRunes sep cs with
      | nil => exact absurd h (splitRunes_ne_nil _ _)
      | cons w0 ws =>
        rw [h] at ih
        intro w hw
        rcases List.mem_cons.mp hw with rfl | hw
        · intro hmem
          rcases List.mem_cons.mp hmem with h1 | h1
          · exact hc h1.symm
          · exact ih w0 (List.mem_cons_self _ _) h1
        · exact ih w (List.mem_cons_of_mem _ hw)

theorem verifyState_eq_none_iff (k : ModelConsts) (conf : Config) (now : Int) (cache : Cache)
    (req : Request) :
    verifyState k conf now cache req = none ↔
      ∃ stateKey, req.Cookie (conf.Site.CookieName ++ "-sk") = some stateKey ∧
        cache.Get now (k.CacheKeyOauth2State ++ stateKey) = some (req.Query "state") := by
  unfold verifyState
  cases hc : req.Cookie (conf.Site.CookieName ++ "-sk") with
  | none => simp
  | some stateKey =>
    cases hg : cache.Get now (k.CacheKeyOauth2State ++ stateKey) with
    | none => simp [hg]
    | some state => simp [hg]

theorem splitAtByte_ascii (s : List Char) (n : Nat) (hn : n ≤ s.length)
    (hs : ∀ c ∈ s, c.toNat < 128) :
    splitAtByte s n = .ok (s.take n, s.drop n) := by
  induction s generalizing n with
  | nil =>
    have h0 : n = 0 := by simpa using hn
    subst h0
    rfl
  | cons c cs ih =>
    cases n with
    | zero => rfl
    | succ m =>
      have hc : runeLen c = 1 := by
        have := hs c (List.mem_cons_self _ _)
        simp [runeLen, this]
      have hm : m ≤ cs.length := by simpa using hn
      have ih2 := ih m hm (fun x hx => hs x (List.mem_cons_of_mem _ hx))
      simp [splitAtByte, hc, ih2]

theorem byteLen_ascii (s : List Char) (hs : ∀ c ∈ s, c.toNat < 128) : byteLen s = s.length := by
  induction s with
  | nil => rfl
  | cons c cs ih =>
    have hc : runeLen c = 1 := by
      have := hs c (List.mem_cons_self _ _)
      simp [runeLen, this]
    have := ih (fun x hx => hs x (List.mem_cons_of_mem _ hx))
    simp only [byteLen, List.map_cons, List.sum_cons, List.length_cons, hc] at this ⊢
    omega

/-- The halves of `splitAtByte` make up the string, and the first has exactly `n` bytes. -/
theorem splitAtByte_ok (s : List Char) (n : Nat) (p : List Char × List Char)
    (h : splitAtByte s n = .ok p) : p.1 ++ p.2 = s ∧ byteLen p.1 = n := by
  induction s generalizing n p with
  | nil =>
    cases n with
    | zero =>
      simp only [splitAtByte] at h
      cases Except.ok.inj h
      exact ⟨rfl, rfl⟩
    | succ m => simp [splitAtByte] at h
  | cons c cs ih =>
    cases n with
    | zero =>
      simp only [splitAtByte] at h
      cases Except.ok.inj h
      exact ⟨rfl, rfl⟩
    | succ m =>
      simp only [splitAtByte] at h
      split_ifs at h with hle
      cases hr : splitAtByte cs (m + 1 - runeLen c) with
      | error e => simp [hr] at h
      | ok q =>
        simp only [hr] at h
        cases Except.ok.inj h
        obtain ⟨h1, h2⟩ := ih _ q hr
        refine ⟨by simp [h1], ?_⟩
        simp only [byteLen, List.map_cons, List.sum_cons] at h2 ⊢
        omega

/-- A login that completes has cut the random string at byte 16, and any later callback
presenting the cookie value and the cached state it issued passes state verification while
the entry is bound and live. -/
theorem login_roundtrip_of_halves (k : ModelConsts) (conf : Config) (ext : Externals)
    (cache : Cache) (req : Request) (r : String) (halves : List Char × List Char)
    (hgen : ext.generateRandomString 32 = .ok r)
    (hsplit : splitAtByte r.data 16 = .ok halves) :
    ∃ out, login k conf ext cache req = .ok out ∧
      out.cookies.map (fun ck => (ck.name, ck.value)) =
        [(conf.Site.CookieName ++ "-sk", String.mk halves.2)] ∧
      ∀ (later : Cache) (t : Int) (req2 : Request),
        later.items.lookup (k.CacheKeyOauth2State ++ String.mk halves.2) =
          out.cache.items.lookup (k.CacheKeyOauth2State ++ String.mk halves.2) →
        (cache.defaultExpiration ≤ 0 ∨ t ≤ ext.now + cache.defaultExpiration) →
        req2.Cookie (conf.Site.CookieName ++ "-sk") = some (String.mk halves.2) →
        req2.Query "state" = String.mk halves.1 →
        verifyState k conf t later req2 = none := by
  have hlogin : login k conf ext cache req = .ok
      { page := .html StatusOK ("dashboard-" ++ conf.Site.DashboardTheme ++ "/redirect")
                  (ext.authCodeURL (getCommonOauth2Config k conf req) (String.mk halves.1))
        cookies := [{ name := conf.Site.CookieName ++ "-sk",
                      value := String.mk halves.2,
                      maxAge := 60 * 5, path := "", domain := "",
                      secure := false, httpOnly := false }]
        saved := []
        calls := [.generateRandomString 32]
        cache := cache.Set ext.now (k.CacheKeyOauth2State ++ String.mk halves.2)
                   (String.mk halves.1) DefaultExpiration } := by
    simp only [login, hgen, hsplit]
  refine ⟨_, hlogin, by simp, ?_⟩
  intro later t req2 hsame hlive hck hst
  rw [verifyState_eq_none_iff]
  refine ⟨_, hck, ?_⟩
  rw [hst]
  unfold Cache.Get
  rw [hsame]
  simp only [lookup_set_self]
  simp only [Item.expiredAt, DefaultExpiration, if_true]
  by_cases hd : cache.defaultExpiration > 0
  · have ht : ¬ t > ext.now + cache.defaultExpiration := by
      rcases hlive with h | h <;> omega
    simp [hd, ht]
  · simp [hd]

/-- On a random string of 32 two-byte runes the cut at byte 16 falls after the eighth rune:
the state has 8 runes and the state-key cookie the other 24. -/
theorem login_cuts_bytes_example :
    (match login exConsts (exConf "github" "octocat")
        { exExt "octocat" with
          generateRandomString := fun _ => .ok "éééééééééééééééééééééééééééééééé" }
        exCache exLoginReq with
      | .ok out => out.cookies.map (fun ck => ck.value.length)
      | .error _ => []) = [24] := by
  decide

/-! ## Claims on state verification -/

/-- C3: state verification in `callback` passes exactly when the state-key cookie is present
and `Cache.Get` finds, under the key `CacheKeyOauth2State ++ cookie value`, an entry equal to
the `state` query parameter. -/
theorem verifyState_pass_iff (k : ModelConsts) (conf : Config) (now : Int) (cache : Cache)
    (req : Request) :
    verifyState k conf now cache req = none ↔
      ∃ stateKey, req.Cookie (conf.Site.CookieName ++ "-sk") = some stateKey ∧
        cache.Get now (k.CacheKeyOauth2State ++ stateKey) = some (req.Query "state") :=
  verifyState_eq_none_iff k conf now cache req

/-- C4: when state verification fails, `callback` makes no collaborator call at all: no token
exchange, no client construction, no user fetch. -/
theorem callback_no_exchange_on_bad_state (k : ModelConsts) (conf : Config) (ext : Externals)
    (cache : Cache) (req : Request) (h : verifyState k conf ext.now cache req ≠ none) :
    (callback k conf ext cache req).calls = [] ∧
      ((callback k conf ext cache req).calls.filter
        (fun c => match c with | .exchange _ => true | _ => false)).length = 0 := by
  cases hv : verifyState k conf ext.now cache req with
  | none => exact absurd hv h
  | some e => rw [callback_verify_fail k conf ext cache req e hv]; simp

/-- C2: a login whose random string `r` has 32 characters, all ASCII (what
`utils.GenerateRandomString` draws from), succeeds, sets the state-key cookie to the last 16
characters of `r`, and leaves a cache under which any later callback that presents that
cookie value and the first 16 characters of `r` as `state` passes state verification, as long
as the entry written by the login is still the one bound to its key and has not expired. -/
theorem login_callback_state_roundtrip (k : ModelConsts) (conf : Config) (ext : Externals)
    (cache : Cache) (req : Request) (r : String)
    (hgen : ext.generateRandomString 32 = .ok r) (hlen : r.length = 32)
    (hascii : ∀ c ∈ r.data, c.toNat < 128) :
    ∃ out, login k conf ext cache req = .ok out ∧
      (String.mk (r.data.take 16)).length = 16 ∧ (String.mk (r.data.drop 16)).length = 16 ∧
      out.cookies.map (fun ck => (ck.name, ck.value)) =
        [(conf.Site.CookieName ++ "-sk", String.mk (r.data.drop 16))] ∧
      ∀ (later : Cache) (t : Int) (req2 : Request),
        later.items.lookup (k.CacheKeyOauth2State ++ String.mk (r.data.drop 16)) =
          out.cache.items.lookup (k.CacheKeyOauth2State ++ String.mk (r.data.drop 16)) →
        (cache.defaultExpiration ≤ 0 ∨ t ≤ ext.now + cache.defaultExpiration) →
        req2.Cookie (conf.Site.CookieName ++ "-sk") = some (String.mk (r.data.drop 16)) →
        req2.Query "state" = String.mk (r.data.take 16) →
        verifyState k conf t later req2 = none := by
  have hl : r.data.length = 32 := hlen
  have hsplit : splitAtByte r.data 16 = .ok (r.data.take 16, r.data.drop 16) :=
    splitAtByte_ascii r.data 16 (by omega) hascii
  obtain ⟨out, h1, h2, h3⟩ := login_roundtrip_of_halves k conf ext cache req r _ hgen hsplit
  refine ⟨out, h1, ?_, ?_, h2, h3⟩
  · simp [String.length, hl]
  · simp [String.length, hl]

theorem login_callback_state_roundtrip_witness :
    ∃ out, login exConsts (exConf "github" "octocat") (exExt "octocat") exCache exLoginReq
        = .ok out ∧
      out.cookies.map (fun ck => (ck.name, ck.value)) =
        [("nezha-dashboard-sk", "GHIJKLMNOPQRSTUV")] ∧
      verifyState exConsts (exConf "github" "octocat") 1300 out.cache exCallbackReq = none := by
  obtain ⟨out, h1, _, _, h2, h3⟩ :=
    login_callback_state_roundtrip exConsts (exConf "github" "octocat") (exExt "octocat")
      exCache exLoginReq "0123456789abcdefGHIJKLMNOPQRSTUV" rfl (by decide) (by decide)
  exact ⟨out, h1, h2, h3 out.cache 1300 exCallbackReq rfl (by decide) (by decide) (by decide)⟩

/-- C4 at a concrete input: a callback without the state-key cookie calls no collaborator. -/
theorem callback_no_exchange_on_bad_state_witness :
    verifyState exConsts (exConf "github" "octocat") (exExt "octocat").now exCacheAfterLogin
        { exCallbackReq with cookies := [] } ≠ none ∧
      (callback exConsts (exConf "github" "octocat") (exExt "octocat") exCacheAfterLogin
        { exCallbackReq with cookies := [] }).calls = [] :=
  ⟨by decide,
   (callback_no_exchange_on_bad_state exConsts (exConf "github" "octocat") (exExt "octocat")
      exCacheAfterLogin { exCallbackReq with cookies := [] } (by decide)).1⟩

/-- C10, as stated, fails: the callback that follows the example login passes state
verification, and a second callback with the same cookie and `state` against the cache the
first one leaves passes it again. -/
theorem state_reused_counterexample :
    verifyState exConsts (exConf "github" "octocat") (exExt "octocat").now exCacheAfterLogin
        exCallbackReq = none ∧
      verifyState exConsts (exConf "github" "octocat") (exExt "octocat").now
        (callback exConsts (exConf "github" "octocat") (exExt "octocat") exCacheAfterLogin
          exCallbackReq).cache exCallbackReq = none := by
  decide

/-- C10 amended: `callback` never writes to the cache, so the state is not consumed: after a
callback that passed state verification, a second callback presenting the same cookie and
`state` against the resulting cache passes state verification again exactly when the entry
has not expired at the instant of the second callback. -/
theorem callback_state_not_consumed (k : ModelConsts) (conf : Config) (ext ext2 : Externals)
    (cache : Cache) (req req2 : Request)
    (h1 : verifyState k conf ext.now cache req = none)
    (hck : req2.Cookie (conf.Site.CookieName ++ "-sk") =
      req.Cookie (conf.Site.CookieName ++ "-sk"))
    (hst : req2.Query "state" = req.Query "state") :
    (callback k conf ext cache req).cache = cache ∧
      (verifyState k conf ext2.now (callback k conf ext cache req).cache req2 = none ↔
        ∀ stateKey it, req.Cookie (conf.Site.CookieName ++ "-sk") = some stateKey →
          cache.items.lookup (k.CacheKeyOauth2State ++ stateKey) = some it →
          it.expiredAt ext2.now = false) := by
  refine ⟨callback_cache k conf ext cache req, ?_⟩
  rw [callback_cache]
  rw [verifyState_eq_none_iff] at h1 ⊢
  obtain ⟨stateKey, hc, hg⟩ := h1
  unfold Cache.Get at hg
  cases hl : cache.items.lookup (k.CacheKeyOauth2State ++ stateKey) with
  | none => simp [hl] at hg
  | some it =>
    simp only [hl] at hg
    have hobj : it.Object = req.Query "state" := by
      by_cases he : it.expiredAt ext.now = true
      · simp [he] at hg
      · simp only [he] at hg
        simpa using hg
    constructor
    · rintro ⟨sk2, hc2, hg2⟩ sk3 it3 hc3 hl3
      have e1 : sk2 = stateKey := Option.some.inj ((hc2.symm.trans hck).trans hc)
      have e2 : sk3 = stateKey := Option.some.inj (hc3.symm.trans hc)
      subst e1
      subst e2
      rw [hl] at hl3
      cases Option.some.inj hl3
      unfold Cache.Get at hg2
      simp only [hl] at hg2
      by_cases he : it.expiredAt ext2.now = true
      · simp [he] at hg2
      · simpa using he
    · intro hlive
      have hlv := hlive stateKey it hc hl
      refine ⟨stateKey, hck.trans hc, ?_⟩
      unfold Cache.Get
      simp only [hl, hlv, hst]
      simp [hobj]

/-- C10 at concrete inputs: after the example callback at instant 1000, the same cookie and
state pass again at 1200 and fail at 1301, the entry expiring at 1300. -/
theorem callback_state_not_consumed_witness :
    verifyState exConsts (exConf "github" "octocat") 1200
        (callback exConsts (exConf "github" "octocat") (exExt "octocat") exCacheAfterLogin
          exCallbackReq).cache exCallbackReq = none ∧
      verifyState exConsts (exConf "github" "octocat") 1301
        (callback exConsts (exConf "github" "octocat") (exExt "octocat") exCacheAfterLogin
          exCallbackReq).cache exCallbackReq ≠ none :=
  ⟨(callback_state_not_consumed exConsts (exConf "github" "octocat") (exExt "octocat")
      { exExt "octocat" with now := 1200 } exCacheAfterLogin exCallbackReq exCallbackReq
      (by decide) rfl rfl).2.mpr (by
        intro stateKey it hc hl
        have hk : stateKey = "GHIJKLMNOPQRSTUV" := by
          have : exCallbackReq.Cookie ((exConf "github" "octocat").Site.CookieName ++ "-sk")
              = some "GHIJKLMNOPQRSTUV" := by decide
          rw [this] at hc
          exact (Option.some.inj hc).symm
        subst hk
        have : exCacheAfterLogin.items.lookup
            (exConsts.CacheKeyOauth2State ++ "GHIJKLMNOPQRSTUV")
            = some { Object := "0123456789abcdef", Expiration := 1300 } := by decide
        rw [this] at hl
        cases Option.some.inj hl
        decide),
   fun h =>
     absurd
       ((callback_state_not_consumed exConsts (exConf "github" "octocat") (exExt "octocat")
          { exExt "octocat" with now := 1301 } exCacheAfterLogin exCallbackReq exCallbackReq
          (by decide) rfl rfl).2.mp h "GHIJKLMNOPQRSTUV"
          { Object := "0123456789abcdef", Expiration := 1300 } (by decide) (by decide))
       (by decide)⟩

/-! ## Claims on the admin check -/

/-- C5: for every allow-list and login, the admin check of `callback` succeeds exactly when
some entry of the allow-list split on commas is non-empty and equal to the login under
`strings.EqualFold`; an empty entry never gives a match. -/
theorem isAdmin_iff (general : Char → Char → Bool) (adminList login : String) :
    isAdmin general adminList login = true ↔
      ∃ e ∈ splitComma adminList, e ≠ "" ∧ EqualFold general login e = true := by
  unfold isAdmin
  exact isAdminLoop_iff general login (splitComma adminList)

/-- C6, as stated, fails: with the allow-list `"Alice,, Bob"` the login `"BOB"` is not
authorised, whatever the Unicode folding table, because the third entry is `" Bob"` with its
leading blank. -/
theorem allowlist_BOB_counterexample :
    splitComma "Alice,, Bob" = ["Alice", "", " Bob"] ∧
      ¬ ∃ general, isAdmin general "Alice,, Bob" "BOB" = true := by
  refine ⟨by decide, ?_⟩
  rintro ⟨general, h⟩
  have : isAdmin general "Alice,, Bob" "BOB" = false := rfl
  rw [this] at h
  exact Bool.noConfusion h

/-- C6 amended: with the allow-list `"Alice,, Bob"` the admin check authorises `"alice"` and
does not authorise `""`; entries are not trimmed, so it authorises `" BOB"` and not `"BOB"`,
while the allow-list `"Alice,,Bob"` authorises `"BOB"`. -/
theorem allowlist_example (general : Char → Char → Bool) :
    isAdmin general "Alice,, Bob" "alice" = true ∧
      isAdmin general "Alice,, Bob" "" = false ∧
      isAdmin general "Alice,, Bob" "BOB" = false ∧
      isAdmin general "Alice,, Bob" " BOB" = true ∧
      isAdmin general "Alice,,Bob" "BOB" = true :=
  ⟨rfl, rfl, rfl, rfl, rfl⟩

/-! ## Claims on the provider config and the cookies -/

/-- The four branches of `getCommonOauth2Config` that set `RedirectURL` set it to
`getRedirectURL`. -/
theorem redirectURL_of_named_provider (k : ModelConsts) (conf : Config) (req : Request)
    (h : conf.Oauth2.OauthType = k.ConfigTypeGitee ∨ conf.Oauth2.OauthType = k.ConfigTypeGitlab ∨
      conf.Oauth2.OauthType = k.ConfigTypeJihulab ∨ conf.Oauth2.OauthType = k.ConfigTypeGitea) :
    (getCommonOauth2Config k conf req).RedirectURL = getRedirectURL req := by
  unfold getCommonOauth2Config
  split_ifs with h1 h2 h3 h4
  · rfl
  · rfl
  · rfl
  · rfl
  · rcases h with h | h | h | h <;> contradiction

/-- The scheme heuristic of `getRedirectURL`. -/
theorem getRedirectURL_eq (req : Request) :
    getRedirectURL req =
      (if hasPrefixStr req.Referer "https://" then "https://" else "http://")
        ++ req.Host ++ "/oauth2/callback" := rfl

/-- C7 fails on the default (GitHub) branch: for the provider type `"github"` the config built
for an HTTPS request to `dash.example.com` has the empty redirect URL, not
`"https://dash.example.com/oauth2/callback"`, which is what the Gitee branch gives for the
same request. -/
theorem github_config_redirect_url_empty :
    (getCommonOauth2Config exConsts (exConf "github" "octocat") exLoginReq).RedirectURL = "" ∧
      (getCommonOauth2Config exConsts (exConf "gitee" "octocat") exLoginReq).RedirectURL
        = "https://dash.example.com/oauth2/callback" ∧
      getRedirectURL exLoginReq = "https://dash.example.com/oauth2/callback" := by
  decide

/-- C9, as stated, fails: the state-key cookie set by the example login and the session
cookie set by the example callback are both set with `httpOnly = false`. -/
theorem cookies_httpOnly_counterexample :
    (match login exConsts (exConf "github" "octocat") (exExt "octocat") exCache exLoginReq with
      | .ok o => o.cookies.map (fun ck => (ck.name, ck.maxAge, ck.httpOnly))
      | .error _ => [])
        = [("nezha-dashboard-sk", 300, false)] ∧
      (callback exConsts (exConf "github" "octocat") (exExt "octocat") exCacheAfterLogin
        exCallbackReq).cookies.map (fun ck => (ck.name, ck.maxAge, ck.httpOnly))
        = [("nezha-dashboard", 86400, false)] := by
  decide

/-- C9 amended: neither cookie is HTTP-only.  Every cookie `login` sets is the state-key
cookie with max-age 300 and `httpOnly = false`, and every cookie `callback` sets is the
session cookie with max-age 86400 and `httpOnly = false`. -/
theorem cookies_attributes (k : ModelConsts) (conf : Config) (ext : Externals) (cache : Cache)
    (req : Request) :
    (∀ out, login k conf ext cache req = .ok out → ∀ ck ∈ out.cookies,
        ck.name = conf.Site.CookieName ++ "-sk" ∧ ck.maxAge = 300 ∧ ck.httpOnly = false) ∧
      (∀ ck ∈ (callback k conf ext cache req).cookies,
        ck.name = conf.Site.CookieName ∧ ck.maxAge = 86400 ∧ ck.httpOnly = false) := by
  constructor
  · intro out hout ck hck
    unfold login at hout
    cases hg : ext.generateRandomString 32 with
    | error e =>
      simp only [hg] at hout
      cases Except.ok.inj hout
      simp at hck
    | ok r =>
      simp only [hg] at hout
      cases hs : splitAtByte r.data 16 with
      | error f => simp [hs] at hout
      | ok halves =>
        simp only [hs] at hout
        cases Except.ok.inj hout
        simp only [List.mem_singleton] at hck
        subst hck
        exact ⟨rfl, rfl, rfl⟩
  · intro ck hck
    unfold callback at hck
    have h := finishStep_cookies conf ext cache _ ck hck
    rw [h]
    exact ⟨rfl, rfl, rfl⟩

/-- C9 at concrete inputs: the example callback sets a cookie, and it is set with max-age
86400 and `httpOnly = false`. -/
theorem cookies_attributes_witness :
    (callback exConsts (exConf "github" "octocat") (exExt "octocat") exCacheAfterLogin
        exCallbackReq).cookies ≠ [] ∧
      (∀ ck ∈ (callback exConsts (exConf "github" "octocat") (exExt "octocat")
          exCacheAfterLogin exCallbackReq).cookies, ck.maxAge = 86400 ∧ ck.httpOnly = false) :=
  ⟨by decide,
   fun ck hck =>
      ((cookies_attributes exConsts (exConf "github" "octocat") (exExt "octocat")
        exCacheAfterLogin exCallbackReq).2 ck hck).2⟩

/-! ## Claims on the whole callback -/

/-- C8: on every provider branch, when state verification and the token exchange succeed and
the identity fetch returns without error a user whose login is empty, `callback` renders the
login-failed page with the identity-fetch error 获取用户信息失败, sets no cookie, saves nothing,
and makes no call past the identity fetch (no session token is generated, `DB.Save` is not
called). -/
theorem callback_empty_login (k : ModelConsts) (conf : Config) (ext : Externals) (cache : Cache)
    (req : Request) (tok : String) (u : User)
    (hv : verifyState k conf ext.now cache req = none)
    (hx : ext.exchange (getCommonOauth2Config k conf req) (req.Query "code") = .ok tok)
    (hc : ∀ base, ext.newClient base tok = none)
    (hu : ext.getUser conf.Oauth2.OauthType tok = .ok u)
    (he : u.Login = "") :
    (callback k conf ext cache req).page =
        .showErrorPage { Code := 400, Title := "登录失败", Msg := "错误信息：获取用户信息失败" } true ∧
      (callback k conf ext cache req).cookies = [] ∧
      (callback k conf ext cache req).saved = [] ∧
      ∀ c ∈ (callback k conf ext cache req).calls,
        c = .exchange (req.Query "code") ∨ c = .getUser ∨ ∃ b, c = .newClient b := by
  obtain ⟨h1, h2⟩ := resolveUser_ok k conf ext tok u hc hu
  rw [callback_after_exchange k conf ext cache req tok hv hx,
    finishStep_empty_login conf ext cache _ _ _ h1 (by simp only [h2]; exact he)]
  refine ⟨rfl, rfl, rfl, ?_⟩
  intro c hcm
  simp only [List.singleton_append, List.mem_cons] at hcm
  rcases hcm with hcm | hcm
  · exact Or.inl hcm
  · exact Or.inr (resolveUser_calls k conf ext tok c hcm)

theorem callback_empty_login_witness :
    (callback exConsts (exConf "gitlab" "octocat") (exExt "") exCacheAfterLogin
        exCallbackReq).page =
        .showErrorPage { Code := 400, Title := "登录失败", Msg := "错误信息：获取用户信息失败" } true ∧
      (callback exConsts (exConf "gitea" "octocat") (exExt "") exCacheAfterLogin
        exCallbackReq).cookies = [] ∧
      (callback exConsts (exConf "gitee" "octocat") (exExt "") exCacheAfterLogin
        exCallbackReq).saved = [] :=
  ⟨(callback_empty_login exConsts (exConf "gitlab" "octocat") (exExt "") exCacheAfterLogin
      exCallbackReq "access-token" { Login := "", Token := "", TokenExpired := 0 }
      (by decide) rfl (fun _ => rfl) rfl rfl).1,
   (callback_empty_login exConsts (exConf "gitea" "octocat") (exExt "") exCacheAfterLogin
      exCallbackReq "access-token" { Login := "", Token := "", TokenExpired := 0 }
      (by decide) rfl (fun _ => rfl) rfl rfl).2.1,
   (callback_empty_login exConsts (exConf "gitee" "octocat") (exExt "") exCacheAfterLogin
      exCallbackReq "access-token" { Login := "", Token := "", TokenExpired := 0 }
      (by decide) rfl (fun _ => rfl) rfl rfl).2.2.1⟩

/-- C1: `callback` fails closed.  When the five checks all pass it saves exactly the session
of the resolved user and sets exactly the session cookie; when they do not all pass it renders
an error page with code 400, sets no cookie, saves nothing and never calls `DB.Save`. -/
theorem callback_fails_closed (k : ModelConsts) (conf : Config) (ext : Externals) (cache : Cache)
    (req : Request) :
    (∀ tok u token, AllChecksPass k conf ext cache req tok u token →
        (callback k conf ext cache req).saved =
          [{ u with Token := token, TokenExpired := ext.addDate ext.now }] ∧
        (callback k conf ext cache req).cookies =
          [{ name := conf.Site.CookieName, value := token, maxAge := 86400,
             path := "", domain := "", secure := false, httpOnly := false }] ∧
        (callback k conf ext cache req).page =
          .html 200 ("dashboard-" ++ conf.Site.DashboardTheme ++ "/redirect") "/") ∧
      ((¬ ∃ tok u token, AllChecksPass k conf ext cache req tok u token) →
        (∃ info, (callback k conf ext cache req).page = .showErrorPage info true ∧
          info.Code = 400) ∧
        (callback k conf ext cache req).cookies = [] ∧
        (callback k conf ext cache req).saved = [] ∧
        ∀ u, Call.dbSave u ∉ (callback k conf ext cache req).calls) := by
  constructor
  · rintro tok u token ⟨hv, hx, h1, h2, hl, ha, hg⟩
    subst h2
    rw [callback_after_exchange k conf ext cache req tok hv hx,
      finishStep_ok conf ext cache _ _ _ token h1 hl ha hg]
    exact ⟨rfl, rfl, rfl⟩
  · intro hno
    cases hv : verifyState k conf ext.now cache req with
    | some e =>
      rw [callback_verify_fail k conf ext cache req e hv]
      exact ⟨⟨_, rfl, rfl⟩, rfl, rfl, by simp⟩
    | none =>
      cases hx : ext.exchange (getCommonOauth2Config k conf req) (req.Query "code") with
      | error e =>
        rw [callback_exchange_fail k conf ext cache req e hv hx]
        exact ⟨⟨_, rfl, rfl⟩, rfl, rfl, by simp⟩
      | ok tok =>
        rw [callback_after_exchange k conf ext cache req tok hv hx]
        have hcalls : ∀ u, Call.dbSave u ∉
            [Call.exchange (req.Query "code")] ++ (resolveUser k conf ext tok).2.2 := by
          intro u hm
          simp only [List.singleton_append, List.mem_cons] at hm
          rcases hm with hm | hm
          · exact Call.noConfusion hm
          · rcases resolveUser_calls k conf ext tok _ hm with h | ⟨b, h⟩ <;>
              exact Call.noConfusion h
        cases h1 : (resolveUser k conf ext tok).1 with
        | some e =>
          rw [finishStep_err conf ext cache _ _ _ e rfl]
          exact ⟨⟨_, rfl, rfl⟩, rfl, rfl, hcalls⟩
        | none =>
          by_cases hl : (resolveUser k conf ext tok).2.1.Login = ""
          · rw [finishStep_empty_login conf ext cache _ _ _ rfl hl]
            exact ⟨⟨_, rfl, rfl⟩, rfl, rfl, hcalls⟩
          · cases ha : isAdmin ext.general conf.Oauth2.Admin
                (resolveUser k conf ext tok).2.1.Login with
            | false =>
              rw [finishStep_not_admin conf ext cache _ _ _ rfl hl ha]
              exact ⟨⟨_, rfl, rfl⟩, rfl, rfl, hcalls⟩
            | true =>
              cases hg : ext.generateRandomString 32 with
              | error e =>
                rw [finishStep_token_err conf ext cache _ _ _ e rfl hl ha hg]
                refine ⟨⟨_, rfl, rfl⟩, rfl, rfl, ?_⟩
                intro u hm
                rcases List.mem_append.mp hm with hm | hm
                · exact hcalls u hm
                · exact Call.noConfusion (List.mem_singleton.mp hm)
              | ok token =>
                exact absurd ⟨tok, _, token, hv, hx, h1, rfl, hl, ha, hg⟩ hno

/-- C1 at concrete inputs: the example callback of an allow-listed user issues the session;
the same callback for a user off the allow-list gets the 400 error page, no cookie, no save. -/
theorem callback_fails_closed_witness :
    (callback exConsts (exConf "github" "octocat") (exExt "octocat") exCacheAfterLogin
        exCallbackReq).saved
        = [{ Login := "octocat", Token := "0123456789abcdefGHIJKLMNOPQRSTUV",
             TokenExpired := 5185000 }] ∧
      (callback exConsts (exConf "github" "octocat") (exExt "mallory") exCacheAfterLogin
        exCallbackReq).cookies = [] ∧
      (callback exConsts (exConf "github" "octocat") (exExt "mallory") exCacheAfterLogin
        exCallbackReq).saved = [] :=
  ⟨((callback_fails_closed exConsts (exConf "github" "octocat") (exExt "octocat")
      exCacheAfterLogin exCallbackReq).1 "access-token"
      { Login := "octocat", Token := "", TokenExpired := 0 } "0123456789abcdefGHIJKLMNOPQRSTUV"
      ⟨by decide, rfl, by decide, by decide, by decide, by decide, rfl⟩).1,
   ((callback_fails_closed exConsts (exConf "github" "octocat") (exExt "mallory")
      exCacheAfterLogin exCallbackReq).2 (by
        rintro ⟨tok, u, token, _, hx, _, h2, _, ha, _⟩
        have htok : tok = "access-token" := (Except.ok.inj hx).symm
        subst htok
        have hu : u = { Login := "mallory", Token := "", TokenExpired := 0 } := h2.symm
        subst hu
        exact Bool.noConfusion ha)).2.1,
   ((callback_fails_closed exConsts (exConf "github" "octocat") (exExt "mallory")
      exCacheAfterLogin exCallbackReq).2 (by
        rintro ⟨tok, u, token, _, hx, _, h2, _, ha, _⟩
        have htok : tok = "access-token" := (Except.ok.inj hx).symm
        subst htok
        have hu : u = { Login := "mallory", Token := "", TokenExpired := 0 } := h2.symm
        subst hu
        exact Bool.noConfusion ha)).2.2.1⟩

end Oauth2
